import Mathlib

/-!
Verification development for the cube-puzzle repository
(src/coords.py, src/piece.py, src/solve.py).

The Python classes mutate their objects in place; here every operation is
embedded as a pure function returning the updated value.  Machine integers
are modelled by `Int` (Python integers are unbounded, so no wrap-around is
needed).  Python's `StopIteration` exception and assertion failures are
modelled by explicit result constructors.
-/

/-- Embedding of `Coords3D` (src/coords.py): a 3D integer coordinate. -/
structure Coords3D where
  x : Int
  y : Int
  z : Int
deriving DecidableEq, Repr

/-- `Coords3D.add` / `__add__`: componentwise sum. -/
def Coords3D.add (a b : Coords3D) : Coords3D :=
  ⟨a.x + b.x, a.y + b.y, a.z + b.z⟩

/-- `Coords3D.__mul__`: multiply coord with scalar. -/
def Coords3D.mul (a : Coords3D) (k : Int) : Coords3D :=
  ⟨a.x * k, a.y * k, a.z * k⟩

/-- `Coords3D.__neg__`: opposite relative to the origin. -/
def Coords3D.neg (a : Coords3D) : Coords3D :=
  ⟨-a.x, -a.y, -a.z⟩

/-- `Coords3D.is_within`: inclusive bounding-box containment. -/
def Coords3D.is_within (v lo hi : Coords3D) : Bool :=
  decide (lo.x ≤ v.x ∧ v.x ≤ hi.x ∧ lo.y ≤ v.y ∧ v.y ≤ hi.y ∧
          lo.z ≤ v.z ∧ v.z ≤ hi.z)

/-- `Coords3D.get_direction`: unary vector direction.  The component signs
are computed branch by branch; the Python asserts `dir_x == 0` when `y` is
non-zero and `dir_x == 0 and dir_y == 0` when `z` is non-zero, raising
`AssertionError` (modelled as `none`) for a non-axis-aligned input. -/
def Coords3D.get_direction (v : Coords3D) : Option Coords3D :=
  let dir_x : Int := if v.x > 0 then 1 else if v.x < 0 then -1 else 0
  if v.y ≠ 0 ∧ dir_x ≠ 0 then none else
  let dir_y : Int := if v.y > 0 then 1 else if v.y < 0 then -1 else 0
  if v.z ≠ 0 ∧ (dir_x ≠ 0 ∨ dir_y ≠ 0) then none else
  let dir_z : Int := if v.z > 0 then 1 else if v.z < 0 then -1 else 0
  some ⟨dir_x, dir_y, dir_z⟩

/-- `Coords3D.rot90_x`: (x, y, z) becomes (x, -z, y). -/
def Coords3D.rot90_x (v : Coords3D) : Coords3D := ⟨v.x, -v.z, v.y⟩

/-- `Coords3D.rot90_y`: (x, y, z) becomes (z, y, -x). -/
def Coords3D.rot90_y (v : Coords3D) : Coords3D := ⟨v.z, v.y, -v.x⟩

/-- `Coords3D.rot90_z`: (x, y, z) becomes (-y, x, z). -/
def Coords3D.rot90_z (v : Coords3D) : Coords3D := ⟨-v.y, v.x, v.z⟩

/-- `Coords3D.get_bb_vect`: per scalar, `-s` if `s < 0`, `bb_len - s` if
`s >= bb_len`, else `0`. -/
def Coords3D.get_bb_vect (v : Coords3D) (bb_len : Int) : Coords3D :=
  let f : Int → Int := fun scalar =>
    if scalar < 0 then -scalar
    else if scalar ≥ bb_len then bb_len - scalar
    else 0
  ⟨f v.x, f v.y, f v.z⟩

/-- Embedding of `Block` (src/piece.py): a single cube block.  The Python
constructor also logs a warning when the position is invalid; the
constructor itself is modelled by `Block.init` below. -/
structure Block where
  pos : Coords3D
  grid_5 : Bool
deriving DecidableEq, Repr

/-- `Block.is_valid`: inside `(0,0,0)..(2,2,2)` for the coarse grid,
inside `(0,0,0)..(4,4,4)` for the 5x5x5 grid. -/
def Block.is_valid (b : Block) : Bool :=
  let bb_start : Coords3D := ⟨0, 0, 0⟩
  let bb_end : Coords3D := if b.grid_5 then ⟨4, 4, 4⟩ else ⟨2, 2, 2⟩
  b.pos.is_within bb_start bb_end

/-- `Block.collides`: two blocks collide when their positions are equal. -/
def Block.collides (a b : Block) : Bool :=
  decide (a.pos = b.pos)

/-- `Block.__init__`: stores the given position and grid flag and logs a
warning (second component `true`) when `is_valid` fails; it never raises. -/
def Block.init (pos : Coords3D) (grid_5 : Bool) : Block × Bool :=
  let b : Block := ⟨pos, grid_5⟩
  (b, !b.is_valid)

def Block.rot90_x (b : Block) : Block := { b with pos := b.pos.rot90_x }

def Block.rot90_y (b : Block) : Block := { b with pos := b.pos.rot90_y }

def Block.rot90_z (b : Block) : Block := { b with pos := b.pos.rot90_z }

/-- Embedding of `Beam` (src/piece.py): the coarse-grid rod; the
constructor stores `start`, `end = start + vect` and `vect`. -/
structure Beam where
  start : Coords3D
  end_ : Coords3D
  vect : Coords3D
deriving DecidableEq, Repr

/-- `Beam.is_valid`: both endpoints inside `(0,0,0)..(3,3,3)`. -/
def Beam.is_valid (bm : Beam) : Bool :=
  bm.start.is_within ⟨0, 0, 0⟩ ⟨3, 3, 3⟩ && bm.end_.is_within ⟨0, 0, 0⟩ ⟨3, 3, 3⟩

/-- `Beam.__init__`: stores `start`, `end = start.add(vect)`, `vect`, and
logs a warning (second component `true`) when `is_valid` fails; it never
raises. -/
def Beam.init (start vect : Coords3D) : Beam × Bool :=
  let bm : Beam := ⟨start, start.add vect, vect⟩
  (bm, !bm.is_valid)

/-- Embedding of `Piece5` (src/piece.py): blocks plus beams, each beam a
list of fine-grid blocks.  The runtime `iterator` attribute (the lazily
created `PiecePositions`) is modelled separately by `SolverPiece`. -/
structure Piece5 where
  blocks : List Block
  beams : List (List Block)
  name : String
deriving DecidableEq, Repr

/-- `Piece5.is_valid`: every standalone block and every beam block valid. -/
def Piece5.is_valid (p : Piece5) : Bool :=
  p.blocks.all Block.is_valid && p.beams.all (fun beam => beam.all Block.is_valid)

/-- `Piece5.collides`: the double loop over standalone blocks of the two
pieces, then the double loop over beam blocks of the two pieces. -/
def Piece5.collides (a other : Piece5) : Bool :=
  (a.blocks.any fun blk => other.blocks.any fun o_blk => blk.collides o_blk) ||
  ((a.beams.flatten).any fun blk_beam =>
     (other.beams.flatten).any fun o_blk_beam => blk_beam.collides o_blk_beam)

/-- All voxels occupied by a piece: standalone blocks and beam blocks. -/
def Piece5.voxels (p : Piece5) : List Coords3D :=
  (p.blocks ++ p.beams.flatten).map Block.pos

/-- `Piece5.translate`: translate every block (standalone and beam). -/
def Piece5.translate (p : Piece5) (vect : Coords3D) : Piece5 :=
  { p with blocks := p.blocks.map fun b => { b with pos := b.pos.add vect },
           beams := p.beams.map fun beam =>
             beam.map fun b => { b with pos := b.pos.add vect } }

def Piece5.rot90_x (p : Piece5) : Piece5 :=
  { p with blocks := p.blocks.map Block.rot90_x,
           beams := p.beams.map fun beam => beam.map Block.rot90_x }

def Piece5.rot90_y (p : Piece5) : Piece5 :=
  { p with blocks := p.blocks.map Block.rot90_y,
           beams := p.beams.map fun beam => beam.map Block.rot90_y }

def Piece5.rot90_z (p : Piece5) : Piece5 :=
  { p with blocks := p.blocks.map Block.rot90_z,
           beams := p.beams.map fun beam => beam.map Block.rot90_z }

/-- Apply a function `n` times (models the Python `for _ in range(n)`). -/
def iterN {α : Type} (f : α → α) : Nat → α → α
  | 0, a => a
  | n + 1, a => iterN f n (f a)

/-- `Piece5.rotate`: `rot_cnt[0]` x-rotations, then `rot_cnt[1]`
y-rotations, then `rot_cnt[2]` z-rotations. -/
def Piece5.rotate (p : Piece5) (rot_cnt : Nat × Nat × Nat) : Piece5 :=
  iterN Piece5.rot90_z rot_cnt.2.2 (iterN Piece5.rot90_y rot_cnt.2.1 (iterN Piece5.rot90_x rot_cnt.1 p))

/-- `Piece5.movement`: rotation first, then translation. -/
def Piece5.movement (p : Piece5) (trans : Coords3D) (rot : Nat × Nat × Nat) : Piece5 :=
  (p.rotate rot).translate trans

/-- `Piece5.get_movement_to_start_pos`: negate the componentwise minimum
over all blocks, starting the fold at (2000, 2000, 2000). -/
def Piece5.get_movement_to_start_pos (p : Piece5) : Coords3D :=
  let blocks := p.blocks ++ p.beams.flatten
  let m := blocks.foldl
    (fun acc blk => (⟨min acc.x blk.pos.x, min acc.y blk.pos.y, min acc.z blk.pos.z⟩ : Coords3D))
    ⟨2000, 2000, 2000⟩
  ⟨-m.x, -m.y, -m.z⟩

/- ---------------------------------------------------------------------
Basic algebraic lemmas about the embedded operations.
--------------------------------------------------------------------- -/

lemma Coords3D.add_add (c a b : Coords3D) : (c.add a).add b = c.add (a.add b) := by
  cases c
  cases a
  cases b
  simp [Coords3D.add, Int.add_assoc]

lemma Coords3D.add_zero_vec (c : Coords3D) : c.add ⟨0, 0, 0⟩ = c := by
  simp only [Coords3D.add, Int.add_zero]

lemma Coords3D.add_neg_cancel_vec (c v : Coords3D) : (c.add v).add v.neg = c := by
  cases c
  cases v
  simp only [Coords3D.add, Coords3D.neg, Coords3D.mk.injEq]
  omega

lemma Piece5.translate_zero (p : Piece5) : p.translate ⟨0, 0, 0⟩ = p := by
  have hb : (fun b : Block => { b with pos := b.pos.add ⟨0, 0, 0⟩ }) = id := by
    funext b
    simp [Coords3D.add_zero_vec]
  cases p with
  | mk blocks beams name =>
    simp [Piece5.translate, hb]

lemma Block.trans_trans_fun (a b : Coords3D) :
    ((fun blk : Block => { blk with pos := blk.pos.add b }) ∘
      (fun blk : Block => { blk with pos := blk.pos.add a })) =
    (fun blk : Block => { blk with pos := blk.pos.add (a.add b) }) := by
  funext blk
  simp [Function.comp, Coords3D.add_add]

lemma Piece5.translate_translate (p : Piece5) (a b : Coords3D) :
    (p.translate a).translate b = p.translate (a.add b) := by
  cases p with
  | mk blocks beams name =>
    simp [Piece5.translate, List.map_map, Block.trans_trans_fun]

/-- Characterization of `Piece5.collides` as intersection of the standalone
block positions or intersection of the beam block positions. -/
lemma Piece5.collides_eq_true_iff (a b : Piece5) :
    a.collides b = true ↔
      ((∃ x ∈ a.blocks, ∃ y ∈ b.blocks, x.pos = y.pos) ∨
       (∃ x ∈ a.beams.flatten, ∃ y ∈ b.beams.flatten, x.pos = y.pos)) := by
  simp only [Piece5.collides, Block.collides, Bool.or_eq_true, List.any_eq_true,
    decide_eq_true_eq]

lemma Piece5.collides_comm (a b : Piece5) : a.collides b = b.collides a := by
  have key : ∀ u v : Piece5, u.collides v = true → v.collides u = true := by
    intro u v h
    rw [Piece5.collides_eq_true_iff] at h ⊢
    rcases h with ⟨x, hx, y, hy, hxy⟩ | ⟨x, hx, y, hy, hxy⟩
    · exact Or.inl ⟨y, hy, x, hx, hxy.symm⟩
    · exact Or.inr ⟨y, hy, x, hx, hxy.symm⟩
  cases hab : a.collides b <;> cases hba : b.collides a
  · rfl
  · exact absurd (key b a hba) (by simp [hab])
  · exact absurd (key a b hab) (by simp [hba])
  · rfl

/- ---------------------------------------------------------------------
C1.  Piece5.collides versus the occupied voxel sets.
--------------------------------------------------------------------- -/

/-- The counterexample pieces for C1: a piece consisting only of a
standalone block at (1,0,1), and a piece consisting only of a beam block at
the same voxel. -/
def pieceA_blk : Piece5 := ⟨[⟨⟨1, 0, 1⟩, true⟩], [], "A"⟩

def pieceB_beam : Piece5 := ⟨[], [[⟨⟨1, 0, 1⟩, true⟩]], "B"⟩

/-- C1 counterexample: the two pieces occupy the same voxel (1,0,1) — one
with a standalone block, the other with a beam block — yet
`Piece5.collides` reports no collision, so `collides` is not equivalent to
intersection of the full occupied voxel sets. -/
theorem c1_counterexample :
    pieceA_blk.collides pieceB_beam = false ∧
    (⟨1, 0, 1⟩ : Coords3D) ∈ pieceA_blk.voxels ∧
    (⟨1, 0, 1⟩ : Coords3D) ∈ pieceB_beam.voxels := by
  decide

/-- C1 (amended): `Piece5.collides a b` is true iff some standalone block
of `a` occupies the same voxel as some standalone block of `b`, or some
beam block of `a` occupies the same voxel as some beam block of `b`; an
overlap between a standalone block of one piece and a beam block of the
other is not detected. -/
theorem c1_collides_characterization :
    ∀ a b : Piece5,
      a.collides b = true ↔
        ((∃ x ∈ a.blocks, ∃ y ∈ b.blocks, x.pos = y.pos) ∨
         (∃ x ∈ a.beams.flatten, ∃ y ∈ b.beams.flatten, x.pos = y.pos)) :=
  Piece5.collides_eq_true_iff

/- ---------------------------------------------------------------------
C4.  Block.is_valid on the fine grid.
--------------------------------------------------------------------- -/

/-- C4 counterexample: the fine-grid block at (1,1,1) has all three
coordinates simultaneously odd, yet `Block.is_valid` accepts it; there is
no parity condition in the code. -/
theorem c4_counterexample :
    (Block.init ⟨1, 1, 1⟩ true).1.is_valid = true ∧
    (1 : Int) % 2 = 1 := by
  decide

/-- C4 (amended): a fine-grid (5x5x5) block is valid iff its position lies
inside the bounding box from (0,0,0) to (4,4,4) inclusive; coordinate
parity plays no role. -/
theorem c4_block_valid_iff_in_box :
    ∀ b : Block, b.grid_5 = true →
      (b.is_valid = true ↔
        (0 ≤ b.pos.x ∧ b.pos.x ≤ 4 ∧ 0 ≤ b.pos.y ∧ b.pos.y ≤ 4 ∧
         0 ≤ b.pos.z ∧ b.pos.z ≤ 4)) := by
  intro b hg
  simp [Block.is_valid, Coords3D.is_within, hg]

/-- Witness for C4: the all-odd in-box block (1,1,1) satisfies both sides
of the amended equivalence. -/
theorem c4_witness :
    (Block.mk ⟨1, 1, 1⟩ true).is_valid = true ↔
      (0 ≤ (1 : Int) ∧ (1 : Int) ≤ 4 ∧ 0 ≤ (1 : Int) ∧ (1 : Int) ≤ 4 ∧
       0 ≤ (1 : Int) ∧ (1 : Int) ≤ 4) :=
  c4_block_valid_iff_in_box (Block.mk ⟨1, 1, 1⟩ true) (by decide)

/- ---------------------------------------------------------------------
C7.  Coords3D.get_bb_vect (clamp_to_box).
--------------------------------------------------------------------- -/

/-- C7 counterexample: with box length 5, the vector (5,0,0) is mapped to
the zero vector although 5 is not in [0,5); and (6,0,0) is corrected to
x-coordinate 5, which is still not in [0,5).  So `get_bb_vect` is not the
minimal correction into the half-open box. -/
theorem c7_counterexample :
    (Coords3D.get_bb_vect ⟨5, 0, 0⟩ 5 = ⟨0, 0, 0⟩ ∧ ¬ ((5 : Int) < 5)) ∧
    ((Coords3D.add ⟨6, 0, 0⟩ (Coords3D.get_bb_vect ⟨6, 0, 0⟩ 5)).x = 5 ∧
     ¬ ((5 : Int) < 5)) := by
  decide

lemma bb_scalar_zero_iff (s L : Int) :
    (if s < 0 then -s else if s ≥ L then L - s else 0) = 0 ↔ (0 ≤ s ∧ s ≤ L) := by
  split
  · omega
  · split <;> omega

lemma bb_scalar_clamp (s L : Int) (hL : 0 ≤ L) :
    s + (if s < 0 then -s else if s ≥ L then L - s else 0) = max 0 (min L s) := by
  rcases le_total 0 s with h | h <;> rcases le_total s L with h2 | h2 <;>
    simp [max_def, min_def] <;> split <;> try split
  all_goals omega

/-- C7 (amended): `get_bb_vect v L` is the zero vector iff every component
of `v` lies in the closed interval [0, L]; otherwise it corrects each
coordinate to `max 0 (min L c)` (for nonnegative `L`), i.e. a negative
coordinate is moved to 0 and a coordinate above `L` is moved to exactly
`L` — the inclusive bound `L`, not strictly inside [0, L). -/
theorem c7_get_bb_vect_characterization :
    ∀ (v : Coords3D) (L : Int),
      (v.get_bb_vect L = ⟨0, 0, 0⟩ ↔
        (0 ≤ v.x ∧ v.x ≤ L ∧ 0 ≤ v.y ∧ v.y ≤ L ∧ 0 ≤ v.z ∧ v.z ≤ L)) ∧
      (0 ≤ L →
        (v.add (v.get_bb_vect L)).x = max 0 (min L v.x) ∧
        (v.add (v.get_bb_vect L)).y = max 0 (min L v.y) ∧
        (v.add (v.get_bb_vect L)).z = max 0 (min L v.z)) := by
  intro v L
  constructor
  · simp only [Coords3D.get_bb_vect, Coords3D.mk.injEq, bb_scalar_zero_iff]
    tauto
  · intro hL
    refine ⟨?_, ?_, ?_⟩ <;>
      simp [Coords3D.get_bb_vect, Coords3D.add, bb_scalar_clamp _ _ hL]

/-- Witness for C7: the amended characterization evaluated at
v = (-2, 7, 3), L = 5. -/
theorem c7_witness :
    ((Coords3D.get_bb_vect ⟨-2, 7, 3⟩ 5 = ⟨0, 0, 0⟩ ↔
        (0 ≤ (-2 : Int) ∧ (-2 : Int) ≤ 5 ∧ 0 ≤ (7 : Int) ∧ (7 : Int) ≤ 5 ∧
         0 ≤ (3 : Int) ∧ (3 : Int) ≤ 5)) ∧
      (0 ≤ (5 : Int) →
        (Coords3D.add ⟨-2, 7, 3⟩ (Coords3D.get_bb_vect ⟨-2, 7, 3⟩ 5)).x = max 0 (min 5 (-2)) ∧
        (Coords3D.add ⟨-2, 7, 3⟩ (Coords3D.get_bb_vect ⟨-2, 7, 3⟩ 5)).y = max 0 (min 5 7) ∧
        (Coords3D.add ⟨-2, 7, 3⟩ (Coords3D.get_bb_vect ⟨-2, 7, 3⟩ 5)).z = max 0 (min 5 3))) :=
  c7_get_bb_vect_characterization ⟨-2, 7, 3⟩ 5

/- ---------------------------------------------------------------------
C10.  Block and Beam construction never fails.
--------------------------------------------------------------------- -/

/-- C10: constructing a `Block` or a `Beam` at any position always
produces the object with exactly the given data (the constructor only logs
a warning, reported here as the boolean second component, and never
rejects); the warning fires precisely when `is_valid` is false, so
invalidity is observable only through `is_valid`. -/
theorem c10_constructors_total :
    ∀ (p : Coords3D) (g : Bool) (s v : Coords3D),
      (Block.init p g).1.pos = p ∧
      (Block.init p g).1.grid_5 = g ∧
      ((Block.init p g).2 = true ↔ (Block.init p g).1.is_valid = false) ∧
      (Beam.init s v).1.start = s ∧
      (Beam.init s v).1.vect = v ∧
      (Beam.init s v).1.end_ = s.add v ∧
      ((Beam.init s v).2 = true ↔ (Beam.init s v).1.is_valid = false) := by
  intro p g s v
  refine ⟨rfl, rfl, ?_, rfl, rfl, rfl, ?_⟩
  · cases h : (Block.init p g).1.is_valid <;> simp [Block.init] at h ⊢ <;> simp [h]
  · cases h : (Beam.init s v).1.is_valid <;> simp [Beam.init] at h ⊢ <;> simp [h]

/- ---------------------------------------------------------------------
C8.  Collision symmetry and self-collision under translation.
--------------------------------------------------------------------- -/

/-- The counterexample piece for C8: a single beam of two adjacent blocks
along the x axis. -/
def pieceQ_beam : Piece5 := ⟨[], [[⟨⟨0, 0, 0⟩, true⟩, ⟨⟨1, 0, 0⟩, true⟩]], "Q"⟩

/-- C8 counterexample: a piece with a two-block beam collides with a copy
of itself translated by the nonzero vector (1,0,0) — the beams overlap at
(1,0,0) — so a nonzero translation does not guarantee non-collision. -/
theorem c8_counterexample :
    pieceQ_beam.collides (pieceQ_beam.translate ⟨1, 0, 0⟩) = true ∧
    (⟨1, 0, 0⟩ : Coords3D) ≠ (⟨0, 0, 0⟩ : Coords3D) := by
  decide

/-- C8 (amended): `Piece5.collides` is symmetric for all piece pairs, and
every piece that occupies at least one voxel (a standalone block or a beam
block) collides with a copy of itself translated by the zero vector; for a
nonzero translation the pieces may or may not collide. -/
theorem c8_collides_symm_self :
    (∀ a b : Piece5, a.collides b = b.collides a) ∧
    (∀ p : Piece5, (p.blocks ≠ [] ∨ p.beams.flatten ≠ []) →
      p.collides (p.translate ⟨0, 0, 0⟩) = true) := by
  constructor
  · exact Piece5.collides_comm
  · intro p hne
    rw [Piece5.translate_zero, Piece5.collides_eq_true_iff]
    rcases hne with hb | hbm
    · obtain ⟨x, hx⟩ := List.exists_mem_of_ne_nil _ hb
      exact Or.inl ⟨x, hx, x, hx, rfl⟩
    · obtain ⟨x, hx⟩ := List.exists_mem_of_ne_nil _ hbm
      exact Or.inr ⟨x, hx, x, hx, rfl⟩

/-- Witness for C8: symmetry at the two counterexample pieces, and
self-collision of the standalone-block piece under the zero translation. -/
theorem c8_witness :
    pieceA_blk.collides pieceB_beam = pieceB_beam.collides pieceA_blk ∧
    pieceA_blk.collides (pieceA_blk.translate ⟨0, 0, 0⟩) = true :=
  ⟨c8_collides_symm_self.1 pieceA_blk pieceB_beam,
   c8_collides_symm_self.2 pieceA_blk (Or.inl (by decide))⟩

/- ---------------------------------------------------------------------
PiecePositions: the position enumerator (src/piece.py).
The Python object carries a deep copy of the piece plus the mutable
fields `offset`, `rot_state`, `trans_state`; each of the three is set to
`None` when `search_next` finds no further state, modelled by `Option`.
--------------------------------------------------------------------- -/

structure PiecePositions where
  piece : Piece5
  offset : Option Coords3D
  rot_state : Option (Nat × Nat × Nat)
  trans_state : Option Coords3D
deriving DecidableEq, Repr

/-- `PiecePositions.__init__`: deep-copies the piece, sets the offset to
the canonical move-to-origin vector and the rotation/translation state to
the start. -/
def PiecePositions.init (piece : Piece5) : PiecePositions :=
  ⟨piece, some piece.get_movement_to_start_pos, some (0, 0, 0), some ⟨0, 0, 0⟩⟩

/-- `PiecePositions.__iter__`: resets `rot_state` and `trans_state` to the
start.  The `offset` field is left untouched (this is exactly what the
Python method does). -/
def PiecePositions.iter (s : PiecePositions) : PiecePositions :=
  { s with rot_state := some (0, 0, 0), trans_state := some ⟨0, 0, 0⟩ }

/-- The canonical move-to-origin offset of a piece rotated by `r`, i.e.
`tmp.rotate(next_rot); tmp.get_movement_to_start_pos()` in `search_next`. -/
def canonical_offset (piece : Piece5) (r : Nat × Nat × Nat) : Coords3D :=
  (piece.rotate r).get_movement_to_start_pos

/-- `PiecePositions.search_next`: search the next
(offset, translation, rotation) state, trying in order a +1 step along X,
then (after zeroing the in-flight x-translation) +1 along Y, then (after
zeroing y) +1 along Z, then an X rotation, a Y rotation and a Z rotation
(each with re-canonicalization and a zeroed in-flight translation).
Returns `none` when exhausted (the Python code returns
`(None, None, None)`).  The translation candidates are written with their
zeroed components already folded in: after the X candidate
`trans + (1,0,0)` fails, Python sets x to 0 and adds (0,1,0), giving the
value `(0, trans.y + 1, trans.z)`, and similarly for Z. -/
def PiecePositions.search_next (piece : Piece5) (offset trans : Coords3D)
    (rot : Nat × Nat × Nat) : Option (Coords3D × Coords3D × (Nat × Nat × Nat)) :=
  -- X translation
  if (piece.movement ((trans.add ⟨1, 0, 0⟩).add offset) rot).is_valid then
    some (offset, trans.add ⟨1, 0, 0⟩, rot)
  -- Y translation
  else if (piece.movement ((Coords3D.mk 0 (trans.y + 1) trans.z).add offset) rot).is_valid then
    some (offset, ⟨0, trans.y + 1, trans.z⟩, rot)
  -- Z translation
  else if (piece.movement ((Coords3D.mk 0 0 (trans.z + 1)).add offset) rot).is_valid then
    some (offset, ⟨0, 0, trans.z + 1⟩, rot)
  -- X rotation
  else if ((piece.rotate (rot.1 + 1, rot.2.1, rot.2.2)).translate
        (canonical_offset piece (rot.1 + 1, rot.2.1, rot.2.2))).is_valid
      && decide (rot.1 + 1 < 4) then
    some (canonical_offset piece (rot.1 + 1, rot.2.1, rot.2.2), ⟨0, 0, 0⟩,
      (rot.1 + 1, rot.2.1, rot.2.2))
  -- Y rotation
  else if ((piece.rotate (0, rot.2.1 + 1, rot.2.2)).translate
        (canonical_offset piece (0, rot.2.1 + 1, rot.2.2))).is_valid
      && decide (rot.2.1 + 1 < 4) then
    some (canonical_offset piece (0, rot.2.1 + 1, rot.2.2), ⟨0, 0, 0⟩,
      (0, rot.2.1 + 1, rot.2.2))
  -- Z rotation
  else if ((piece.rotate (0, 0, rot.2.2 + 1)).translate
        (canonical_offset piece (0, 0, rot.2.2 + 1))).is_valid
      && decide (rot.2.2 + 1 < 4) then
    some (canonical_offset piece (0, 0, rot.2.2 + 1), ⟨0, 0, 0⟩, (0, 0, rot.2.2 + 1))
  else
    none

/-- Result of `PiecePositions.__next__`: either `StopIteration`, or the
assertion error raised by `Coords3D`'s arithmetic when the stored offset
is `None` while the rotation/translation state is not, or the produced
piece snapshot together with the advanced enumerator state. -/
inductive NextResult where
  | stopIteration
  | assertError
  | yields (p : Piece5) (s : PiecePositions)
deriving DecidableEq, Repr

/-- `PiecePositions.__next__`: raise `StopIteration` when the translation
or rotation state is `None`; otherwise apply rotation, offset and
translation to a copy of the stored piece, compute the following state
with `search_next`, and return the snapshot. -/
def PiecePositions.next (s : PiecePositions) : NextResult :=
  match s.trans_state, s.rot_state with
  | none, _ => .stopIteration
  | some _, none => .stopIteration
  | some tr, some rot =>
    match s.offset with
    | none => .assertError
    | some offset =>
      let piece := ((s.piece.rotate rot).translate offset).translate tr
      match PiecePositions.search_next s.piece offset tr rot with
      | some (o, t, r) =>
        .yields piece { s with offset := some o, trans_state := some t, rot_state := some r }
      | none =>
        .yields piece { s with offset := none, trans_state := none, rot_state := none }

/-- Advance the enumerator `n` times, staying put once no snapshot is
produced. -/
def PiecePositions.advanceN (n : Nat) (s : PiecePositions) : PiecePositions :=
  iterN (fun t => match t.next with | .yields _ t' => t' | _ => t) n s

/-- The piece snapshot produced by the (n+1)-th call to `__next__` of a
fresh iteration, if any. -/
def PiecePositions.yield_at (n : Nat) (s : PiecePositions) : Option Piece5 :=
  match (PiecePositions.advanceN n s).next with
  | .yields p _ => some p
  | _ => none

lemma Coords3D.add_comm_vec (a b : Coords3D) : a.add b = b.add a := by
  cases a
  cases b
  simp [Coords3D.add, Int.add_comm]

/-- Any (offset, translation, rotation) state produced by `search_next`
was validated: placing the base piece accordingly yields a valid piece. -/
lemma search_next_some_valid (pc : Piece5) (o t : Coords3D) (r : Nat × Nat × Nat)
    {o' t' : Coords3D} {r' : Nat × Nat × Nat}
    (h : PiecePositions.search_next pc o t r = some (o', t', r')) :
    (((pc.rotate r').translate o').translate t').is_valid = true := by
  unfold PiecePositions.search_next at h
  split_ifs at h with h1 h2 h3 h4 h5 h6
  · simp only [Option.some.injEq, Prod.mk.injEq] at h
    obtain ⟨rfl, rfl, rfl⟩ := h
    rw [Piece5.translate_translate, Coords3D.add_comm_vec]
    simpa [Piece5.movement] using h1
  · simp only [Option.some.injEq, Prod.mk.injEq] at h
    obtain ⟨rfl, rfl, rfl⟩ := h
    rw [Piece5.translate_translate, Coords3D.add_comm_vec]
    simpa [Piece5.movement] using h2
  · simp only [Option.some.injEq, Prod.mk.injEq] at h
    obtain ⟨rfl, rfl, rfl⟩ := h
    rw [Piece5.translate_translate, Coords3D.add_comm_vec]
    simpa [Piece5.movement] using h3
  · simp only [Bool.and_eq_true] at h4
    simp only [Option.some.injEq, Prod.mk.injEq] at h
    obtain ⟨rfl, rfl, rfl⟩ := h
    rw [Piece5.translate_zero]
    exact h4.1
  · simp only [Bool.and_eq_true] at h5
    simp only [Option.some.injEq, Prod.mk.injEq] at h
    obtain ⟨rfl, rfl, rfl⟩ := h
    rw [Piece5.translate_zero]
    exact h5.1
  · simp only [Bool.and_eq_true] at h6
    simp only [Option.some.injEq, Prod.mk.injEq] at h
    obtain ⟨rfl, rfl, rfl⟩ := h
    rw [Piece5.translate_zero]
    exact h6.1

/-- Structure of a successful `__next__` call: the state fields were all
set, the snapshot is the stored piece placed at (rotation, offset,
translation), and the successor state either carries the `search_next`
result or is fully exhausted. -/
lemma next_yields_charact {s : PiecePositions} {p : Piece5} {s' : PiecePositions}
    (h : s.next = .yields p s') :
    ∃ off tr rot,
      s.offset = some off ∧ s.trans_state = some tr ∧ s.rot_state = some rot ∧
      p = ((s.piece.rotate rot).translate off).translate tr ∧
      s'.piece = s.piece ∧
      ((∃ o t r, PiecePositions.search_next s.piece off tr rot = some (o, t, r) ∧
          s'.offset = some o ∧ s'.trans_state = some t ∧ s'.rot_state = some r) ∨
       (PiecePositions.search_next s.piece off tr rot = none ∧ s'.trans_state = none)) := by
  rcases s with ⟨pc, off?, rot?, tr?⟩
  rcases tr? with _ | tr
  · simp [PiecePositions.next] at h
  rcases rot? with _ | rot
  · simp [PiecePositions.next] at h
  rcases off? with _ | off
  · simp [PiecePositions.next] at h
  · simp only [PiecePositions.next] at h
    rcases hsn : PiecePositions.search_next pc off tr rot with _ | ⟨⟨o, t, r⟩⟩
    · rw [hsn] at h
      injection h with hp hs'
      exact ⟨off, tr, rot, rfl, rfl, rfl, hp.symm, by rw [← hs'],
        Or.inr ⟨hsn, by rw [← hs']⟩⟩
    · rw [hsn] at h
      injection h with hp hs'
      exact ⟨off, tr, rot, rfl, rfl, rfl, hp.symm, by rw [← hs'],
        Or.inl ⟨o, t, r, hsn, by rw [← hs'], by rw [← hs'], by rw [← hs']⟩⟩

/- ---------------------------------------------------------------------
C5.  The translation step attempted by the enumerator.
--------------------------------------------------------------------- -/

/-- A single fine-grid block at the origin (used as a small test piece). -/
def pieceS : Piece5 := ⟨[⟨⟨0, 0, 0⟩, true⟩], [], "S"⟩

set_option maxRecDepth 100000 in
/-- C5 counterexample: from the canonical start state of a single-block
piece, the first state `search_next` produces uses the translation
(1,0,0) — a step of +1 along X with an odd component — not +2. -/
theorem c5_counterexample :
    PiecePositions.search_next pieceS ⟨0, 0, 0⟩ ⟨0, 0, 0⟩ (0, 0, 0) =
      some (⟨0, 0, 0⟩, ⟨1, 0, 0⟩, (0, 0, 0)) ∧
    (1 : Int) % 2 = 1 := by
  decide

/-- C5 (amended): each successive translation step attempted by
`search_next` is +1 along X (then, zeroing x, +1 along Y; then, zeroing y,
+1 along Z); enumerated translations therefore need not have even
components. -/
theorem c5_translation_step_is_plus_one :
    ∀ (pc : Piece5) (offset trans : Coords3D) (rot : Nat × Nat × Nat),
      ((pc.movement ((trans.add ⟨1, 0, 0⟩).add offset) rot).is_valid = true →
        PiecePositions.search_next pc offset trans rot =
          some (offset, trans.add ⟨1, 0, 0⟩, rot)) ∧
      ((pc.movement ((trans.add ⟨1, 0, 0⟩).add offset) rot).is_valid = false →
        (pc.movement ((Coords3D.mk 0 (trans.y + 1) trans.z).add offset) rot).is_valid = true →
        PiecePositions.search_next pc offset trans rot =
          some (offset, ⟨0, trans.y + 1, trans.z⟩, rot)) ∧
      ((pc.movement ((trans.add ⟨1, 0, 0⟩).add offset) rot).is_valid = false →
        (pc.movement ((Coords3D.mk 0 (trans.y + 1) trans.z).add offset) rot).is_valid = false →
        (pc.movement ((Coords3D.mk 0 0 (trans.z + 1)).add offset) rot).is_valid = true →
        PiecePositions.search_next pc offset trans rot =
          some (offset, ⟨0, 0, trans.z + 1⟩, rot)) := by
  intro pc offset trans rot
  refine ⟨?_, ?_, ?_⟩ <;> intros <;> simp [PiecePositions.search_next, *]

/-- Witness for C5: the +1 X step taken on the single-block piece. -/
theorem c5_witness :
    PiecePositions.search_next pieceS ⟨0, 0, 0⟩ ⟨0, 0, 0⟩ (0, 0, 0) =
      some (⟨0, 0, 0⟩, Coords3D.add ⟨0, 0, 0⟩ ⟨1, 0, 0⟩, (0, 0, 0)) :=
  (c5_translation_step_is_plus_one pieceS ⟨0, 0, 0⟩ ⟨0, 0, 0⟩ (0, 0, 0)).1 (by decide)

/- ---------------------------------------------------------------------
C6.  Reset-to-start of the enumerator.
--------------------------------------------------------------------- -/

/-- A piece spanning the whole 5x5x5 box diagonally: its enumeration has
exactly 64 states (one per rotation triple, no room to translate). -/
def pieceDiag : Piece5 := ⟨[⟨⟨0, 0, 0⟩, true⟩, ⟨⟨4, 4, 4⟩, true⟩], [], "D"⟩

set_option maxRecDepth 100000 in
/-- C6 counterexample: a fresh enumeration of `pieceDiag` does yield a
first state, but after its 64 states are exhausted the stored offset is
cleared; `__iter__` resets only the rotation and translation state, so
the advance following the reset hits the `None` offset and fails with an
assertion error instead of yielding the first state again. -/
theorem c6_counterexample :
    (PiecePositions.yield_at 0 (PiecePositions.init pieceDiag)).isSome = true ∧
    PiecePositions.next ((PiecePositions.advanceN 64 (PiecePositions.init pieceDiag)).iter) =
      .assertError := by
  decide

lemma Coords3D.add_left_cancel_vec {c a b : Coords3D} (h : c.add a = c.add b) : a = b := by
  cases c
  cases a
  cases b
  simp only [Coords3D.add, Coords3D.mk.injEq] at h ⊢
  omega

/-- Translation by two different vectors separates any piece that occupies
at least one voxel. -/
lemma Piece5.translate_inj {p : Piece5} {a b : Coords3D}
    (hne : p.blocks ≠ [] ∨ p.beams.flatten ≠ [])
    (h : p.translate a = p.translate b) : a = b := by
  rcases hne with hb | hbm
  · obtain ⟨x, hx⟩ := List.exists_mem_of_ne_nil _ hb
    have hmap := congrArg Piece5.blocks h
    simp only [Piece5.translate] at hmap
    rw [List.map_inj_left] at hmap
    exact Coords3D.add_left_cancel_vec (congrArg Block.pos (hmap x hx))
  · obtain ⟨x, hx⟩ := List.exists_mem_of_ne_nil _ hbm
    rw [List.mem_flatten] at hx
    obtain ⟨beam, hbeam, hxbeam⟩ := hx
    have hmap := congrArg Piece5.beams h
    simp only [Piece5.translate] at hmap
    rw [List.map_inj_left] at hmap
    have h2 := hmap beam hbeam
    rw [List.map_inj_left] at h2
    exact Coords3D.add_left_cancel_vec (congrArg Block.pos (h2 x hxbeam))

/-- A piece with no standalone block and only empty beams. -/
def Piece5.no_voxels (p : Piece5) : Prop :=
  p.blocks = [] ∧ ∀ beam ∈ p.beams, beam = []

lemma no_voxels_mapped {blocks : List Block} {beams : List (List Block)} {nm : String}
    (f : Block → Block) (h : (Piece5.mk blocks beams nm).no_voxels) :
    (Piece5.mk (blocks.map f) (beams.map (List.map f)) nm).no_voxels := by
  obtain ⟨hb, hbm⟩ := h
  constructor
  · show List.map f blocks = []
    have hb' : blocks = [] := hb
    rw [hb']
    rfl
  · intro beam hbeam
    have hbeam' : beam ∈ List.map (List.map f) beams := hbeam
    rw [List.mem_map] at hbeam'
    obtain ⟨b0, hb0, rfl⟩ := hbeam'
    have hb0' : b0 = [] := hbm b0 hb0
    rw [hb0']
    rfl

lemma no_voxels_rot90_x {p : Piece5} (h : p.no_voxels) : p.rot90_x.no_voxels := by
  cases p
  exact no_voxels_mapped _ h

lemma no_voxels_rot90_y {p : Piece5} (h : p.no_voxels) : p.rot90_y.no_voxels := by
  cases p
  exact no_voxels_mapped _ h

lemma no_voxels_rot90_z {p : Piece5} (h : p.no_voxels) : p.rot90_z.no_voxels := by
  cases p
  exact no_voxels_mapped _ h

lemma no_voxels_translate {p : Piece5} (v : Coords3D) (h : p.no_voxels) :
    (p.translate v).no_voxels := by
  cases p
  exact no_voxels_mapped _ h

lemma no_voxels_iterN (f : Piece5 → Piece5)
    (hf : ∀ p : Piece5, p.no_voxels → (f p).no_voxels) :
    ∀ (n : Nat) (p : Piece5), p.no_voxels → (iterN f n p).no_voxels := by
  intro n
  induction n with
  | zero => intro p h; exact h
  | succ k ih => intro p h; exact ih (f p) (hf p h)

lemma no_voxels_movement {p : Piece5} (t : Coords3D) (r : Nat × Nat × Nat)
    (h : p.no_voxels) : (p.movement t r).no_voxels := by
  refine no_voxels_translate t ?_
  refine no_voxels_iterN _ (fun q hq => no_voxels_rot90_z hq) _ _ ?_
  refine no_voxels_iterN _ (fun q hq => no_voxels_rot90_y hq) _ _ ?_
  exact no_voxels_iterN _ (fun q hq => no_voxels_rot90_x hq) _ _ h

lemma no_voxels_is_valid {p : Piece5} (h : p.no_voxels) : p.is_valid = true := by
  obtain ⟨hb, hbm⟩ := h
  simp only [Piece5.is_valid, hb, List.all_nil, Bool.true_and, List.all_eq_true]
  intro beam hbeam
  rw [hbm beam hbeam]
  simp

/-- For a voxel-free piece every placement is valid, so `search_next`
always succeeds with its very first candidate, the +1 step along X,
echoing the offset it was given. -/
lemma search_next_no_voxels {pc : Piece5} (h : pc.no_voxels) (off : Coords3D) :
    PiecePositions.search_next pc off ⟨0, 0, 0⟩ (0, 0, 0) =
      some (off, Coords3D.add ⟨0, 0, 0⟩ ⟨1, 0, 0⟩, (0, 0, 0)) := by
  have hval := no_voxels_is_valid
    (no_voxels_movement ((Coords3D.add ⟨0, 0, 0⟩ ⟨1, 0, 0⟩).add off) (0, 0, 0) h)
  unfold PiecePositions.search_next
  rw [if_pos hval]

lemma flatten_nil_forall {α : Type} {l : List (List α)} (h : l.flatten = []) :
    ∀ x ∈ l, x = [] := by
  induction l with
  | nil => intro x hx; simp at hx
  | cons a as ih =>
    rw [List.flatten_cons, List.append_eq_nil] at h
    intro x hx
    rcases hx with _ | hx
    · exact h.1
    · exact ih h.2 x (by assumption)

lemma Piece5.rotate_zero (p : Piece5) : p.rotate (0, 0, 0) = p := rfl

/-- C6 (amended): `__iter__` resets the rotation and translation state but
keeps the stored offset, so the advance after a reset coincides with the
first advance of a fresh enumeration exactly when the stored offset equals
the piece's canonical start offset (in particular before any rotation has
been taken); with a stale or cleared offset — after a rotation advance or
after exhaustion — the advance after a reset diverges from a fresh
enumeration (erroring in the exhausted case). -/
theorem c6_reset_matches_fresh_iff_offset_canonical :
    ∀ s : PiecePositions,
      (s.iter).next = (PiecePositions.init s.piece).next ↔
        s.offset = some s.piece.get_movement_to_start_pos := by
  intro s
  constructor
  · intro h
    rcases hoff : s.offset with _ | off
    · exfalso
      simp only [PiecePositions.next, PiecePositions.iter, PiecePositions.init, hoff] at h
      rcases hsn2 : PiecePositions.search_next s.piece s.piece.get_movement_to_start_pos
          ⟨0, 0, 0⟩ (0, 0, 0) with _ | ⟨⟨o, t, r⟩⟩ <;>
        rw [hsn2] at h <;> simp at h
    · by_cases hemp : s.piece.blocks = [] ∧ s.piece.beams.flatten = []
      · have hnv : s.piece.no_voxels := ⟨hemp.1, flatten_nil_forall hemp.2⟩
        have hsn1 := search_next_no_voxels hnv off
        have hsn2 := search_next_no_voxels hnv s.piece.get_movement_to_start_pos
        simp only [PiecePositions.next, PiecePositions.iter, PiecePositions.init, hoff,
          hsn1, hsn2, NextResult.yields.injEq, PiecePositions.mk.injEq,
          Option.some.injEq] at h
        rw [h.2.2.1]
      · have hne : s.piece.blocks ≠ [] ∨ s.piece.beams.flatten ≠ [] := by
          rcases not_and_or.mp hemp with h1 | h2
          · exact Or.inl h1
          · exact Or.inr h2
        have hp : ((s.piece.rotate (0, 0, 0)).translate off).translate ⟨0, 0, 0⟩ =
            ((s.piece.rotate (0, 0, 0)).translate
              s.piece.get_movement_to_start_pos).translate ⟨0, 0, 0⟩ := by
          rcases hsn1 : PiecePositions.search_next s.piece off ⟨0, 0, 0⟩ (0, 0, 0)
              with _ | ⟨⟨o1, t1, r1⟩⟩ <;>
          rcases hsn2 : PiecePositions.search_next s.piece
              s.piece.get_movement_to_start_pos ⟨0, 0, 0⟩ (0, 0, 0)
              with _ | ⟨⟨o2, t2, r2⟩⟩ <;>
            simp only [PiecePositions.next, PiecePositions.iter, PiecePositions.init,
              hoff, hsn1, hsn2, NextResult.yields.injEq] at h <;>
            exact h.1
        rw [Piece5.translate_zero, Piece5.translate_zero, Piece5.rotate_zero] at hp
        rw [Piece5.translate_inj hne hp]
  · intro h
    have hs : s.iter = PiecePositions.init s.piece := by
      cases s with
      | mk piece offset rot_state trans_state =>
        simp only [PiecePositions.iter, PiecePositions.init] at h ⊢
        rw [h]
    rw [hs]

/-- Witness for C6: an enumerator state over `pieceDiag` whose rotation
and translation state are mid-flight but whose offset is still canonical;
resetting it and advancing agrees with a fresh enumeration. -/
theorem c6_witness :
    (PiecePositions.iter
        ⟨pieceDiag, some pieceDiag.get_movement_to_start_pos, some (1, 2, 3), some ⟨7, 7, 7⟩⟩).next =
      (PiecePositions.init pieceDiag).next :=
  (c6_reset_matches_fresh_iff_offset_canonical
    ⟨pieceDiag, some pieceDiag.get_movement_to_start_pos, some (1, 2, 3), some ⟨7, 7, 7⟩⟩).mpr rfl

/- ---------------------------------------------------------------------
C3.  Duplicates and validity of enumerated states.
--------------------------------------------------------------------- -/

/-- A piece whose first (canonically offset) placement is invalid: its two
blocks are 5 apart along X, too wide for the 5x5x5 box. -/
def pieceWide : Piece5 := ⟨[⟨⟨0, 0, 0⟩, true⟩, ⟨⟨5, 0, 0⟩, true⟩], [], "W"⟩

set_option maxRecDepth 100000 in
/-- C3 counterexample: for the rotation-symmetric single-block piece, the
1st and the 126th produced snapshots have identical full block-set content
(a duplicate); and for `pieceWide` the very first produced snapshot fails
`is_valid` (the initial state is emitted without any validity check). -/
theorem c3_counterexample :
    PiecePositions.yield_at 0 (PiecePositions.init pieceS) =
      PiecePositions.yield_at 125 (PiecePositions.init pieceS) ∧
    (PiecePositions.yield_at 0 (PiecePositions.init pieceS)).isSome = true ∧
    (PiecePositions.yield_at 0 (PiecePositions.init pieceWide)).map Piece5.is_valid =
      some false := by
  decide

/-- C3 (amended): every snapshot the enumerator produces after the first
one passes `is_valid()` (it was checked by `search_next`); the first
snapshot is the canonically offset placement emitted without a check and
may be invalid, and distinct steps of the enumeration may repeat the same
full block-set content. -/
theorem c3_states_after_first_valid :
    ∀ (s s' s'' : PiecePositions) (p p' : Piece5),
      s.next = .yields p s' →
      s'.next = .yields p' s'' →
      p'.is_valid = true := by
  intro s s' s'' p p' h1 h2
  obtain ⟨off, tr, rot, _, _, _, _, hpc, hbr⟩ := next_yields_charact h1
  obtain ⟨off2, tr2, rot2, ho2, ht2, hr2, hp2, _, _⟩ := next_yields_charact h2
  rcases hbr with ⟨o, t, r, hsn, ho', ht', hr'⟩ | ⟨_, ht'⟩
  · rw [ho'] at ho2
    rw [ht'] at ht2
    rw [hr'] at hr2
    injection ho2 with e1
    injection ht2 with e2
    injection hr2 with e3
    rw [hp2, hpc, ← e1, ← e2, ← e3]
    exact search_next_some_valid s.piece off tr rot hsn
  · rw [ht'] at ht2
    exact absurd ht2 (by simp)

/- ---------------------------------------------------------------------
The mount solver (src/solve.py): add_piece.
--------------------------------------------------------------------- -/

/-- The runtime `Piece5` object of the solver: the geometric piece plus
the lazily created `iterator` attribute used by `next_pos`. -/
structure SolverPiece where
  piece : Piece5
  iterator : Option PiecePositions
deriving DecidableEq, Repr

/-- Result of `Piece5.next_pos`: the escaping `StopIteration` (carrying
the updated solver piece, whose iterator is now materialized), the
assertion error of the underlying arithmetic, or the advanced piece. -/
inductive NextPosResult where
  | stopIteration (sp : SolverPiece)
  | assertError
  | ok (sp : SolverPiece)
deriving DecidableEq, Repr

/-- `Piece5.next_pos` (src/piece.py): create the iterator lazily
(`iter(PiecePositions(self))`; `__iter__` on a fresh enumerator is the
identity), call `next` on it, and copy the produced blocks and beams into
the piece.  `StopIteration` propagates to the caller. -/
def SolverPiece.next_pos (sp : SolverPiece) : NextPosResult :=
  match (sp.iterator.getD (PiecePositions.init sp.piece)).next with
  | .stopIteration =>
    .stopIteration { sp with iterator := some (sp.iterator.getD (PiecePositions.init sp.piece)) }
  | .assertError => .assertError
  | .yields p it' =>
    .ok { piece := { sp.piece with blocks := p.blocks, beams := p.beams },
          iterator := some it' }

/-- Modelled from the spec: `reset()` is called by the mount solver
(src/solve.py, `add_piece` and `backtrack`) but the method itself is not
present in src/piece.py.  Following the spec's words — "reset piece to its
first position" and "reset-to-start" — it rebuilds the enumerator of the
piece's base state at its start and puts the piece back into the first
enumerated placement. -/
def SolverPiece.reset (sp : SolverPiece) : SolverPiece :=
  match sp.iterator with
  | none => { sp with iterator := some (PiecePositions.init sp.piece) }
  | some it =>
    match (PiecePositions.init it.piece).next with
    | .yields p it1 =>
      { piece := { sp.piece with blocks := p.blocks, beams := p.beams },
        iterator := some it1 }
    | _ => { sp with iterator := some (PiecePositions.init it.piece) }

/-- `piece_collides_with_others` (src/solve.py): whether any of the other
pieces collides with the candidate. -/
def piece_collides_with_others (one : Piece5) (others : List Piece5) : Bool :=
  others.any fun other_piece => other_piece.collides one

/-- Result of `add_piece`: the returned boolean with the updated puzzle
and unplaced stack, a raised error, or the fuel bound being reached (the
Python `while` loop is unbounded; fuel only limits this model). -/
inductive AddPieceResult where
  | ok (added : Bool) (puzzle : List SolverPiece) (unplaced : List SolverPiece)
  | error
  | outOfFuel
deriving DecidableEq, Repr

/-- The `while piece_collides_with_others(...)` loop of `add_piece`
(src/solve.py): advance the piece until it no longer collides; on
`StopIteration` reset the piece, push it back and report failure. -/
def add_piece_loop (fuel : Nat) (puzzle : List SolverPiece) (sp : SolverPiece)
    (rest : List SolverPiece) : AddPieceResult :=
  match fuel with
  | 0 => .outOfFuel
  | fuel + 1 =>
    if piece_collides_with_others sp.piece (puzzle.map SolverPiece.piece) then
      match sp.next_pos with
      | .stopIteration sp' => .ok false puzzle (sp'.reset :: rest)
      | .assertError => .error
      | .ok sp' => add_piece_loop fuel puzzle sp' rest
    else
      .ok true (puzzle ++ [sp]) rest

/-- `add_piece` (src/solve.py).  Python's `unplaced` list is a stack whose
top is its last element; the model keeps the stack top at the head of the
list.  Popping from an empty stack raises IndexError, modelled as
`.error`. -/
def add_piece (fuel : Nat) (puzzle unplaced : List SolverPiece) : AddPieceResult :=
  match unplaced with
  | [] => .error
  | sp :: rest => add_piece_loop fuel puzzle sp rest

/-- Well-formedness of an enumerator state: the offset is never cleared
while the rotation and translation state are still set.  Every state
reachable through `init` and `next` satisfies this. -/
def PiecePositions.wfb (it : PiecePositions) : Bool :=
  !(it.offset.isNone && it.trans_state.isSome && it.rot_state.isSome)

/-- Well-formedness of a solver piece: its iterator, if present, is
well formed. -/
def SolverPiece.wfb (sp : SolverPiece) : Bool :=
  match sp.iterator with
  | none => true
  | some it => it.wfb

lemma PiecePositions.next_ne_assertError_of_wfb {it : PiecePositions}
    (h : it.wfb = true) : it.next ≠ .assertError := by
  rcases it with ⟨pc, off?, rot?, tr?⟩
  rcases tr? with _ | tr
  · simp [PiecePositions.next]
  rcases rot? with _ | rot
  · simp [PiecePositions.next]
  rcases off? with _ | off
  · simp [PiecePositions.wfb] at h
  · rcases hsn : PiecePositions.search_next pc off tr rot with _ | ⟨⟨o, t, r⟩⟩ <;>
      simp [PiecePositions.next, hsn]

lemma PiecePositions.next_yields_wfb {it it' : PiecePositions} {p : Piece5}
    (h : it.next = .yields p it') : it'.wfb = true := by
  rcases it with ⟨pc, off?, rot?, tr?⟩
  rcases tr? with _ | tr
  · simp [PiecePositions.next] at h
  rcases rot? with _ | rot
  · simp [PiecePositions.next] at h
  rcases off? with _ | off
  · simp [PiecePositions.next] at h
  · simp only [PiecePositions.next] at h
    rcases hsn : PiecePositions.search_next pc off tr rot with _ | ⟨⟨o, t, r⟩⟩ <;>
        rw [hsn] at h <;> injection h with hp hs' <;> rw [← hs'] <;>
      simp [PiecePositions.wfb]

lemma SolverPiece.next_pos_ne_assertError {sp : SolverPiece} (h : sp.wfb = true) :
    sp.next_pos ≠ .assertError := by
  have hwf : (sp.iterator.getD (PiecePositions.init sp.piece)).wfb = true := by
    rcases hit : sp.iterator with _ | it
    · simp [PiecePositions.init, PiecePositions.wfb]
    · simpa [SolverPiece.wfb, hit] using h
  rcases hn : (sp.iterator.getD (PiecePositions.init sp.piece)).next with _ | _ | ⟨p, it'⟩
  · simp [SolverPiece.next_pos, hn]
  · exact absurd hn (PiecePositions.next_ne_assertError_of_wfb hwf)
  · simp [SolverPiece.next_pos, hn]

lemma SolverPiece.next_pos_ok_wfb {sp sp' : SolverPiece}
    (h : sp.next_pos = .ok sp') : sp'.wfb = true := by
  unfold SolverPiece.next_pos at h
  rcases hn : (sp.iterator.getD (PiecePositions.init sp.piece)).next with _ | _ | ⟨p, it'⟩ <;>
    rw [hn] at h
  · simp at h
  · simp at h
  · injection h with hsp
    rw [← hsp]
    simp only [SolverPiece.wfb]
    exact PiecePositions.next_yields_wfb hn

lemma add_piece_loop_ne_error (fuel : Nat) :
    ∀ (puzzle : List SolverPiece) (sp : SolverPiece) (rest : List SolverPiece),
      sp.wfb = true → add_piece_loop fuel puzzle sp rest ≠ .error := by
  induction fuel with
  | zero =>
    intro puzzle sp rest _
    simp [add_piece_loop]
  | succ n ih =>
    intro puzzle sp rest hwf
    unfold add_piece_loop
    split
    · rcases hn : sp.next_pos with sp' | _ | sp'
      · simp [hn]
      · exact absurd hn (SolverPiece.next_pos_ne_assertError hwf)
      · exact ih puzzle sp' rest (SolverPiece.next_pos_ok_wfb hn)
    · simp

/-- C2: for every well-formed solver piece popped from the unplaced
stack, `add_piece` never raises; and whenever the popped piece collides
with the placed pieces and its enumerator signals exhaustion
(`StopIteration`), `add_piece` resets the piece, pushes it back onto the
unplaced stack unchanged otherwise, and reports failure (`False`) to the
caller. -/
theorem c2_add_piece_handles_exhaustion :
    ∀ (fuel : Nat) (puzzle : List SolverPiece) (sp : SolverPiece) (rest : List SolverPiece),
      sp.wfb = true →
      (add_piece fuel puzzle (sp :: rest) ≠ .error) ∧
      (∀ sp', piece_collides_with_others sp.piece (puzzle.map SolverPiece.piece) = true →
        sp.next_pos = .stopIteration sp' →
        add_piece (fuel + 1) puzzle (sp :: rest) = .ok false puzzle (sp'.reset :: rest)) := by
  intro fuel puzzle sp rest hwf
  constructor
  · exact add_piece_loop_ne_error fuel puzzle sp rest hwf
  · intro sp' hcol hstop
    simp [add_piece, add_piece_loop, hcol, hstop]

/-- Concrete exhausted solver piece over `pieceDiag`. -/
def spD_exhausted : SolverPiece := ⟨pieceDiag, some ⟨pieceDiag, none, none, none⟩⟩

/-- Concrete fresh solver piece over `pieceDiag`, already placed. -/
def spD_placed : SolverPiece := ⟨pieceDiag, none⟩

/-- Witness for C2: the exhausted `pieceDiag` collides with an identical
placed piece; `add_piece` reports failure and pushes the reset piece
back. -/
theorem c2_witness :
    add_piece 1 [spD_placed] [spD_exhausted] =
      .ok false [spD_placed] [spD_exhausted.reset] :=
  (c2_add_piece_handles_exhaustion 0 [spD_placed] spD_exhausted [] (by decide)).2
    spD_exhausted (by decide) (by decide)

/- ---------------------------------------------------------------------
The unmount solver (src/solve.py): move_puzzle_piece and
unmount_puzzle_step.  The pieces handled here come from
`piece.get_result()`, which is not in src/; the parts of their interface
that src/solve.py uses are modelled from the spec and marked as such.
--------------------------------------------------------------------- -/

/-- `solve_grid_dim` (src/solve.py): side of the working lattice. -/
def solve_grid_dim : Int := 25

/-- Modelled from the spec: the pieces handled by the unmount solver come
from `piece.get_result()`, which is not present under src/.  Per the
spec, such a piece exposes the voxel cells it occupies (standalone blocks
together with beam blocks), an undo-history of translations
(`umount_trans_history`) and an archive of cleared histories. -/
structure UPiece where
  name : String
  voxels : List Coords3D
  umount_trans_history : List Coords3D
  archived_history : List (List Coords3D)
deriving DecidableEq, Repr

/-- Translation of an unmount piece: every occupied voxel is shifted. -/
def UPiece.translate (p : UPiece) (v : Coords3D) : UPiece :=
  { p with voxels := p.voxels.map fun c => c.add v }

/-- Modelled from the spec: collision between unmount pieces is the
bitwise AND of the two pieces' voxel bitmasks being non-empty
(`compute_np` and the numpy grids are not present under src/). -/
def UPiece.collides (a b : UPiece) : Bool :=
  a.voxels.any fun v => b.voxels.any fun w => decide (v = w)

/-- Modelled from the spec: a piece is inside a bounding box when every
occupied voxel is (the piece-level `is_within` used by
`move_puzzle_piece` is not present under src/). -/
def UPiece.is_within (p : UPiece) (lo hi : Coords3D) : Bool :=
  p.voxels.all fun v => v.is_within lo hi

/-- Modelled from the spec: the most recently recorded translation of the
undo-history, if any (`get_last_trans` is not present under src/). -/
def UPiece.get_last_trans (p : UPiece) : Option Coords3D :=
  p.umount_trans_history.getLast?

/-- Modelled from the spec: record a realized translation in the
undo-history (`add_trans_history` is not present under src/). -/
def UPiece.add_trans_history (p : UPiece) (t : Coords3D) : UPiece :=
  { p with umount_trans_history := p.umount_trans_history ++ [t] }

/-- Modelled from the spec: archive (and clear) the undo-history
(`archive_history` is not present under src/). -/
def UPiece.archive_history (p : UPiece) : UPiece :=
  { p with archived_history := p.archived_history ++ [p.umount_trans_history],
           umount_trans_history := [] }

/-- `piece_collides_with_others`/`np_check_collision` for unmount pieces:
whether any of the other pieces collides with the candidate. -/
def upiece_collides_with_others (one : UPiece) (others : List UPiece) : Bool :=
  others.any fun other_piece => other_piece.collides one

/-- The six candidate unit directions of `move_puzzle_piece`. -/
def movements0 : List Coords3D :=
  [⟨1, 0, 0⟩, ⟨0, 1, 0⟩, ⟨0, 0, 1⟩, ⟨-1, 0, 0⟩, ⟨0, -1, 0⟩, ⟨0, 0, -1⟩]

/-- The candidate directions for a piece: all six, minus the reverse of
the direction of the last recorded translation.  `none` models the two
raising paths of the Python: `get_direction` asserting on a
non-axis-aligned last translation, and `movements.remove` raising
`ValueError` when the reversed direction is not among the six unit moves
(e.g. a zero last translation). -/
def movements_for (piece : UPiece) : Option (List Coords3D) :=
  match piece.get_last_trans with
  | none => some movements0
  | some last_trans =>
    match last_trans.get_direction with
    | none => none
    | some d =>
      if d.neg ∈ movements0 then some (movements0.erase d.neg)
      else none

/-- The inner `while` of `move_puzzle_piece`: keep translating by `m`
while inside the working lattice and collision-free.  The Python loop is
unbounded; `fuel` bounds this model (any piece occupying a voxel exits at
the lattice boundary well within a large fuel). -/
def slide_loop (fuel : Nat) (m : Coords3D) (others : List UPiece) (cnt : Nat)
    (p : UPiece) : Nat × UPiece :=
  match fuel with
  | 0 => (cnt, p)
  | fuel + 1 =>
    if p.is_within ⟨0, 0, 0⟩ ⟨solve_grid_dim - 1, solve_grid_dim - 1, solve_grid_dim - 1⟩
        && !(upiece_collides_with_others p others) then
      slide_loop fuel m others (cnt + 1) (p.translate m)
    else
      (cnt, p)

/-- One direction attempt of `move_puzzle_piece`: translate by `m`, slide
while possible, then revert the last (failing) translation. -/
def try_direction (fuel : Nat) (m : Coords3D) (others : List UPiece) (p : UPiece) :
    Nat × UPiece :=
  ((slide_loop fuel m others 0 (p.translate m)).1,
   (slide_loop fuel m others 0 (p.translate m)).2.translate m.neg)

/-- The `for m in movements` loop of `move_puzzle_piece`: break on the
first direction with a non-zero count; when the loop runs out, return the
last tried direction with its (zero) count.  An empty direction list
cannot arise from `movements_for`. -/
def try_movements (fuel : Nat) (others : List UPiece) (p : UPiece) :
    List Coords3D → Coords3D × Nat × UPiece
  | [] => (⟨0, 0, 0⟩, 0, p)
  | [m] =>
    (m, (try_direction fuel m others p).1, (try_direction fuel m others p).2)
  | m :: ms =>
    if (try_direction fuel m others p).1 ≠ 0 then
      (m, (try_direction fuel m others p).1, (try_direction fuel m others p).2)
    else
      try_movements fuel others (try_direction fuel m others p).2 ms

/-- Python `list.insert` (appends when the index is past the end). -/
def list_insert_at {α : Type} : Nat → α → List α → List α
  | 0, a, l => a :: l
  | _ + 1, a, [] => [a]
  | n + 1, a, x :: xs => x :: list_insert_at n a xs

/-- Result of `move_puzzle_piece`: the last tried direction, the realized
count and the updated puzzle, or the error (`AssertionError` from
`get_direction` or `ValueError` from `movements.remove`) propagating out
of the candidate-direction computation. -/
inductive MoveResult where
  | ok (unit_dir : Coords3D) (trans_cnt : Nat) (puzzle : List UPiece)
  | error
deriving DecidableEq, Repr

/-- `move_puzzle_piece` (src/solve.py) acting on the piece at index `i`:
remove it from the puzzle, try the candidate unit directions, and
re-insert the (possibly moved) piece at its index. -/
def move_puzzle_piece (fuel : Nat) (puzzle : List UPiece) (i : Nat) : MoveResult :=
  match puzzle[i]? with
  | none => .ok ⟨0, 0, 0⟩ 0 puzzle
  | some piece =>
    match movements_for piece with
    | none => .error
    | some movements =>
      .ok (try_movements fuel (puzzle.eraseIdx i) piece movements).1
        (try_movements fuel (puzzle.eraseIdx i) piece movements).2.1
        (list_insert_at i
          (try_movements fuel (puzzle.eraseIdx i) piece movements).2.2
          (puzzle.eraseIdx i))

/-- Result of `unmount_puzzle_step`: the returned
(unit_dir, trans_cnt, piece_moved) triple — the moved piece reported by
its index — together with the updated puzzle; or the NameError Python
raises returning the unbound `unit_dir` when the puzzle is empty; or an
error raised inside `move_puzzle_piece` propagating out of the step. -/
inductive StepResult where
  | res (unit_dir : Coords3D) (trans_cnt : Nat) (piece_moved : Option Nat)
      (puzzle : List UPiece)
  | nameError
  | error
deriving DecidableEq, Repr

/-- Record the realized translation in the history of the piece at index
`i` (`p.add_trans_history(trans)` on the piece inside the puzzle). -/
def record_move (puzzle1 : List UPiece) (i : Nat) (trans : Coords3D) : List UPiece :=
  match puzzle1[i]? with
  | some p => puzzle1.set i (p.add_trans_history trans)
  | none => puzzle1

/-- The `for p in puzzle` loop of `unmount_puzzle_step`: try to move the
piece at each index in turn; on the first realized move, record it in
that piece's history and return; if no piece moves, archive every
piece's history and report no moved piece.  `last` carries the
(unit_dir, trans_cnt) of the preceding `move_puzzle_piece` call (the
loop variables Python reads when returning). -/
def unmount_loop (fuel : Nat) (last : Option (Coords3D × Nat)) (puzzle : List UPiece)
    (i : Nat) : Nat → StepResult
  | 0 =>
    match last with
    | none => .nameError
    | some (d, c) => .res d c none (puzzle.map UPiece.archive_history)
  | remaining + 1 =>
    match move_puzzle_piece fuel puzzle i with
    | .error => .error
    | .ok unit_dir trans_cnt puzzle1 =>
      if unit_dir.mul (Int.ofNat trans_cnt) = (⟨0, 0, 0⟩ : Coords3D) then
        unmount_loop fuel (some (unit_dir, trans_cnt)) puzzle1 (i + 1) remaining
      else
        .res unit_dir trans_cnt (some i)
          (record_move puzzle1 i (unit_dir.mul (Int.ofNat trans_cnt)))

/-- `unmount_puzzle_step` (src/solve.py). -/
def unmount_puzzle_step (fuel : Nat) (puzzle : List UPiece) : StepResult :=
  unmount_loop fuel none puzzle 0 puzzle.length

/-- Whether a step result reports the configuration as stuck: zero count,
no moved piece, the given (archived) puzzle — and not an error. -/
def StepResult.is_stuck_archive (r : StepResult) (archived : List UPiece) : Prop :=
  match r with
  | .res _ cnt moved pz => cnt = 0 ∧ moved = none ∧ pz = archived
  | .nameError => False
  | .error => False

lemma Coords3D.mul_ofNat_zero (d : Coords3D) : d.mul (Int.ofNat 0) = (⟨0, 0, 0⟩ : Coords3D) := by
  cases d
  simp [Coords3D.mul]

lemma UPiece.translate_neg_cancel (p : UPiece) (m : Coords3D) :
    (p.translate m).translate m.neg = p := by
  have hfun : ((fun c : Coords3D => c.add m.neg) ∘ fun c => c.add m) = id := by
    funext c
    simp [Function.comp, Coords3D.add_neg_cancel_vec]
  cases p with
  | mk name voxels hist arch =>
    simp only [UPiece.translate, List.map_map, hfun, List.map_id]

lemma slide_loop_cnt_le (fuel : Nat) (m : Coords3D) (others : List UPiece) :
    ∀ (cnt : Nat) (p : UPiece), cnt ≤ (slide_loop fuel m others cnt p).1 := by
  induction fuel with
  | zero =>
    intro cnt p
    simp [slide_loop]
  | succ n ih =>
    intro cnt p
    unfold slide_loop
    split
    · exact le_trans (Nat.le_succ cnt) (ih (cnt + 1) (p.translate m))
    · exact le_refl cnt

lemma slide_loop_zero (fuel : Nat) (m : Coords3D) (others : List UPiece) (p : UPiece)
    (h : (slide_loop fuel m others 0 p).1 = 0) :
    slide_loop fuel m others 0 p = (0, p) := by
  cases fuel with
  | zero => simp [slide_loop]
  | succ n =>
    unfold slide_loop at h ⊢
    split at h
    · exfalso
      have := slide_loop_cnt_le n m others (0 + 1) (p.translate m)
      omega
    · rename_i hc
      rw [if_neg hc]

lemma try_direction_zero (fuel : Nat) (m : Coords3D) (others : List UPiece) (p : UPiece)
    (h : (try_direction fuel m others p).1 = 0) :
    (try_direction fuel m others p).2 = p := by
  unfold try_direction at h ⊢
  rw [slide_loop_zero fuel m others (p.translate m) h]
  exact UPiece.translate_neg_cancel p m

lemma try_movements_zero (fuel : Nat) (others : List UPiece) :
    ∀ (ms : List Coords3D) (p : UPiece),
      (try_movements fuel others p ms).2.1 = 0 →
      (try_movements fuel others p ms).2.2 = p := by
  intro ms
  induction ms with
  | nil =>
    intro p h
    simp [try_movements]
  | cons m ms ih =>
    intro p h
    cases ms with
    | nil =>
      simp only [try_movements] at h ⊢
      exact try_direction_zero fuel m others p h
    | cons m2 ms2 =>
      simp only [try_movements] at h ⊢
      by_cases hc : (try_direction fuel m others p).1 ≠ 0
      · rw [if_pos hc] at h ⊢
        exact absurd h hc
      · rw [if_neg hc] at h ⊢
        push_neg at hc
        rw [ih (try_direction fuel m others p).2 h]
        exact try_direction_zero fuel m others p hc

lemma list_insert_at_erase {α : Type} (l : List α) :
    ∀ (i : Nat) (x : α), l[i]? = some x → list_insert_at i x (l.eraseIdx i) = l := by
  induction l with
  | nil =>
    intro i x h
    simp at h
  | cons a as ih =>
    intro i x h
    cases i with
    | zero =>
      simp at h
      subst h
      simp [list_insert_at, List.eraseIdx]
    | succ n =>
      simp at h
      simp only [list_insert_at, List.eraseIdx]
      rw [ih n x h]

lemma move_puzzle_piece_zero (fuel : Nat) (puzzle : List UPiece) (i : Nat)
    {d : Coords3D} {pz1 : List UPiece}
    (h : move_puzzle_piece fuel puzzle i = .ok d 0 pz1) : pz1 = puzzle := by
  unfold move_puzzle_piece at h
  rcases hp : puzzle[i]? with _ | piece <;> simp only [hp] at h
  · injection h with h1 h2 h3
    exact h3.symm
  · rcases hm : movements_for piece with _ | movements <;> simp only [hm] at h
    · simp at h
    · injection h with h1 h2 h3
      rw [← h3, try_movements_zero fuel (puzzle.eraseIdx i) movements piece h2]
      exact list_insert_at_erase puzzle i piece hp

lemma unmount_loop_stuck (fuel : Nat) (puzzle : List UPiece)
    (hall : ∀ j, j < puzzle.length →
      ∃ d pz1, move_puzzle_piece fuel puzzle j = .ok d 0 pz1) :
    ∀ (remaining i : Nat) (last : Option (Coords3D × Nat)),
      i + remaining = puzzle.length →
      (match last with
       | none => 0 < remaining
       | some (_, c) => c = 0) →
      (unmount_loop fuel last puzzle i remaining).is_stuck_archive
        (puzzle.map UPiece.archive_history) := by
  intro remaining
  induction remaining with
  | zero =>
    intro i last hlen hl
    rcases last with _ | ⟨d, c⟩
    · simp at hl
    · simp only at hl
      simp [unmount_loop, StepResult.is_stuck_archive, hl]
  | succ n ih =>
    intro i last hlen hl
    have hi : i < puzzle.length := by omega
    obtain ⟨d, pz1, hmv⟩ := hall i hi
    have hpz : pz1 = puzzle := move_puzzle_piece_zero fuel puzzle i hmv
    unfold unmount_loop
    rw [hmv, hpz]
    simp only
    rw [if_pos (Coords3D.mul_ofNat_zero d)]
    exact ih (i + 1) (some (d, 0)) (by omega) rfl

/-- C9: whenever a full pass over a non-empty puzzle moves no piece
(every index returns normally with a zero translation count),
`unmount_puzzle_step` archives (clears into history) every piece's
undo-history, reports the configuration as stuck to its caller as a
normal result — zero count and no moved piece, not an error — and every
returned piece's undo-history is empty. -/
theorem c9_unmount_step_stuck_archives :
    ∀ (fuel : Nat) (puzzle : List UPiece),
      puzzle ≠ [] →
      (∀ j, j < puzzle.length →
        ∃ d pz1, move_puzzle_piece fuel puzzle j = .ok d 0 pz1) →
      (unmount_puzzle_step fuel puzzle).is_stuck_archive
        (puzzle.map UPiece.archive_history) ∧
      ∀ p ∈ puzzle.map UPiece.archive_history, p.umount_trans_history = [] := by
  intro fuel puzzle hne hall
  constructor
  · unfold unmount_puzzle_step
    refine unmount_loop_stuck fuel puzzle hall puzzle.length 0 none (by omega) ?_
    simp only
    have : puzzle.length ≠ 0 := fun h0 => hne (List.length_eq_zero.mp h0)
    omega
  · intro p hp
    simp only [List.mem_map] at hp
    obtain ⟨q, -, rfl⟩ := hp
    simp [UPiece.archive_history]

/-- An unmount piece shaped like a 3D plus sign around (2,2,2), with the
center voxel missing. -/
def upA : UPiece :=
  ⟨"A", [⟨1, 2, 2⟩, ⟨3, 2, 2⟩, ⟨2, 1, 2⟩, ⟨2, 3, 2⟩, ⟨2, 2, 1⟩, ⟨2, 2, 3⟩], [], []⟩

/-- An unmount piece occupying only the center voxel (2,2,2); `upA` and
`upB` block each other in all six directions. -/
def upB : UPiece := ⟨"B", [⟨2, 2, 2⟩], [], []⟩

/-- Witness for C9: the interlocked two-piece configuration is stuck;
the step archives both histories and reports no movement. -/
theorem c9_witness :
    (unmount_puzzle_step 30 [upA, upB]).is_stuck_archive
        ([upA, upB].map UPiece.archive_history) ∧
      ∀ p ∈ [upA, upB].map UPiece.archive_history, p.umount_trans_history = [] :=
  c9_unmount_step_stuck_archives 30 [upA, upB] (by decide)
    (fun j hj => by
      have hj2 : j < 2 := by simpa using hj
      interval_cases j <;> exact ⟨⟨0, 0, -1⟩, [upA, upB], by decide⟩)

/-- Witness for C3: the second snapshot of the single-block piece's
enumeration — the block moved to (1,0,0) — is valid. -/
theorem c3_witness :
    Piece5.is_valid ⟨[⟨⟨1, 0, 0⟩, true⟩], [], "S"⟩ = true :=
  c3_states_after_first_valid (PiecePositions.init pieceS)
    ⟨pieceS, some ⟨0, 0, 0⟩, some (0, 0, 0), some ⟨1, 0, 0⟩⟩
    ⟨pieceS, some ⟨0, 0, 0⟩, some (0, 0, 0), some ⟨2, 0, 0⟩⟩
    ⟨[⟨⟨0, 0, 0⟩, true⟩], [], "S"⟩
    ⟨[⟨⟨1, 0, 0⟩, true⟩], [], "S"⟩
    (by decide) (by decide)
